import Mathlib

/-!
Verification of the ravr DSP engine (src-rust/src/dsp_engine.rs).

The Rust code works on f32. We shallow-embed it over the exact rationals:
every arithmetic operation of the source (+, -, *, /, abs, max, comparisons,
clamps, casts to usize) is translated literally to the corresponding exact
operation on the rationals.  The transcendental f32 library functions that the
source calls (sin, cos, sqrt, exp, log10, and powf with base 10) have no exact
rational counterpart; they are abstracted as the fields of a `FloatOps`
parameter that is threaded through every definition that needs one.  Theorems
quantify over `FloatOps` (possibly constrained by facts that the true f32
functions satisfy, e.g. `powf 10 0 = 1`), so they cover the actual f32
implementation; concrete `FloatOps` instances are supplied to evaluate the
model on explicit inputs.
-/

/-- The transcendental f32 operations used by dsp_engine.rs, abstracted.
`pow10 x` stands for the source expression `10.0_f32.powf(x)`. -/
structure FloatOps where
  sin : ℚ → ℚ
  cos : ℚ → ℚ
  sqrt : ℚ → ℚ
  exp : ℚ → ℚ
  log10 : ℚ → ℚ
  pow10 : ℚ → ℚ

/-- The f32 constant `std::f32::consts::PI` (value of the nearest f32 to pi). -/
def ratPi : ℚ := 13176795 / 4194304

/-- Rust `as usize` cast from a (nonnegative or negative) float: truncation
toward zero with saturation at 0 for negative inputs. -/
def usizeOfF32 (x : ℚ) : ℕ := (⌊x⌋).toNat

/-- Rust `f32::clamp(lo, hi)`. -/
def rclamp (x lo hi : ℚ) : ℚ := if x < lo then lo else if x > hi then hi else x

/-- Biquad filter coefficients and per-channel state (struct BiquadState). -/
structure BiquadState where
  b0 : ℚ
  b1 : ℚ
  b2 : ℚ
  a1 : ℚ
  a2 : ℚ
  x1_l : ℚ
  x2_l : ℚ
  y1_l : ℚ
  y2_l : ℚ
  x1_r : ℚ
  x2_r : ℚ
  y1_r : ℚ
  y2_r : ℚ

/-- impl Default for BiquadState. -/
def BiquadState.default : BiquadState :=
  { b0 := 1, b1 := 0, b2 := 0, a1 := 0, a2 := 0,
    x1_l := 0, x2_l := 0, y1_l := 0, y2_l := 0,
    x1_r := 0, x2_r := 0, y1_r := 0, y2_r := 0 }

/-- BiquadState::process_stereo (Direct Form II Transposed per channel). -/
def BiquadState.process_stereo (s : BiquadState) (in_l in_r : ℚ) :
    BiquadState × ℚ × ℚ :=
  let out_l := s.b0 * in_l + s.b1 * s.x1_l + s.b2 * s.x2_l
             - s.a1 * s.y1_l - s.a2 * s.y2_l
  let out_r := s.b0 * in_r + s.b1 * s.x1_r + s.b2 * s.x2_r
             - s.a1 * s.y1_r - s.a2 * s.y2_r
  ({ s with x2_l := s.x1_l, x1_l := in_l, y2_l := s.y1_l, y1_l := out_l,
            x2_r := s.x1_r, x1_r := in_r, y2_r := s.y1_r, y1_r := out_r },
   out_l, out_r)

/-- The arithmetic core of the low-shelf design of
BiquadState::set_low_shelf, taking the already-computed transcendental
scalars: a = 10^(gain_db/40), the cosine and sine of w0, root_a = sqrt(a)
and slope_root = sqrt((a + 1/a)(1/0.9 - 1) + 2).  Returns
(a0, (b0, b1, b2, a1, a2)) exactly as computed by the source. -/
def lowShelfFromScalars (a cos_w0 sin_w0 root_a slope_root : ℚ) :
    ℚ × (ℚ × ℚ × ℚ × ℚ × ℚ) :=
  let alpha := sin_w0 / 2 * slope_root
  let sqrt_a_2 := 2 * root_a * alpha
  let a0 := (a + 1) + (a - 1) * cos_w0 + sqrt_a_2
  (a0,
   ((a * ((a + 1) - (a - 1) * cos_w0 + sqrt_a_2)) / a0,
    (2 * a * ((a - 1) - (a + 1) * cos_w0)) / a0,
    (a * ((a + 1) - (a - 1) * cos_w0 - sqrt_a_2)) / a0,
    (-2 * ((a - 1) + (a + 1) * cos_w0)) / a0,
    ((a + 1) + (a - 1) * cos_w0 - sqrt_a_2) / a0))

/-- The low-shelf design of BiquadState::set_low_shelf. -/
def lowShelfDesign (F : FloatOps) (freq gain_db sample_rate : ℚ) :
    ℚ × (ℚ × ℚ × ℚ × ℚ × ℚ) :=
  let a := F.pow10 (gain_db / 40)
  let w0 := 2 * ratPi * freq / sample_rate
  lowShelfFromScalars a (F.cos w0) (F.sin w0) (F.sqrt a)
    (F.sqrt ((a + 1 / a) * (1 / (9 / 10 : ℚ) - 1) + 2))

/-- BiquadState::set_low_shelf: replaces the coefficients, keeps the history. -/
def BiquadState.set_low_shelf (s : BiquadState) (F : FloatOps)
    (freq gain_db sample_rate : ℚ) : BiquadState :=
  let d := lowShelfDesign F freq gain_db sample_rate
  { s with b0 := d.2.1, b1 := d.2.2.1, b2 := d.2.2.2.1,
           a1 := d.2.2.2.2.1, a2 := d.2.2.2.2.2 }

/-- The arithmetic core of the peaking-EQ design of BiquadState::set_peaking,
on the already-computed transcendental scalars: (a0, (b0, b1, b2, a1, a2)). -/
def peakingFromScalars (a cos_w0 sin_w0 q : ℚ) :
    ℚ × (ℚ × ℚ × ℚ × ℚ × ℚ) :=
  let alpha := sin_w0 / (2 * q)
  let a0 := 1 + alpha / a
  (a0,
   ((1 + alpha * a) / a0,
    (-2 * cos_w0) / a0,
    (1 - alpha * a) / a0,
    (-2 * cos_w0) / a0,
    (1 - alpha / a) / a0))

/-- The peaking-EQ design of BiquadState::set_peaking. -/
def peakingDesign (F : FloatOps) (freq gain_db q sample_rate : ℚ) :
    ℚ × (ℚ × ℚ × ℚ × ℚ × ℚ) :=
  let a := F.pow10 (gain_db / 40)
  let w0 := 2 * ratPi * freq / sample_rate
  peakingFromScalars a (F.cos w0) (F.sin w0) q

/-- BiquadState::set_peaking: replaces the coefficients, keeps the history. -/
def BiquadState.set_peaking (s : BiquadState) (F : FloatOps)
    (freq gain_db q sample_rate : ℚ) : BiquadState :=
  let d := peakingDesign F freq gain_db q sample_rate
  { s with b0 := d.2.1, b1 := d.2.2.1, b2 := d.2.2.2.1,
           a1 := d.2.2.2.2.1, a2 := d.2.2.2.2.2 }

/-- The arithmetic core of the high-shelf design of
BiquadState::set_high_shelf, on the already-computed transcendental scalars:
(a0, (b0, b1, b2, a1, a2)). -/
def highShelfFromScalars (a cos_w0 sin_w0 root_a slope_root : ℚ) :
    ℚ × (ℚ × ℚ × ℚ × ℚ × ℚ) :=
  let alpha := sin_w0 / 2 * slope_root
  let sqrt_a_2 := 2 * root_a * alpha
  let a0 := (a + 1) - (a - 1) * cos_w0 + sqrt_a_2
  (a0,
   ((a * ((a + 1) + (a - 1) * cos_w0 + sqrt_a_2)) / a0,
    (-2 * a * ((a - 1) + (a + 1) * cos_w0)) / a0,
    (a * ((a + 1) + (a - 1) * cos_w0 - sqrt_a_2)) / a0,
    (2 * ((a - 1) - (a + 1) * cos_w0)) / a0,
    ((a + 1) - (a - 1) * cos_w0 - sqrt_a_2) / a0))

/-- The high-shelf design of BiquadState::set_high_shelf. -/
def highShelfDesign (F : FloatOps) (freq gain_db sample_rate : ℚ) :
    ℚ × (ℚ × ℚ × ℚ × ℚ × ℚ) :=
  let a := F.pow10 (gain_db / 40)
  let w0 := 2 * ratPi * freq / sample_rate
  highShelfFromScalars a (F.cos w0) (F.sin w0) (F.sqrt a)
    (F.sqrt ((a + 1 / a) * (1 / (9 / 10 : ℚ) - 1) + 2))

/-- BiquadState::set_high_shelf: replaces the coefficients, keeps history. -/
def BiquadState.set_high_shelf (s : BiquadState) (F : FloatOps)
    (freq gain_db sample_rate : ℚ) : BiquadState :=
  let d := highShelfDesign F freq gain_db sample_rate
  { s with b0 := d.2.1, b1 := d.2.2.1, b2 := d.2.2.2.1,
           a1 := d.2.2.2.2.1, a2 := d.2.2.2.2.2 }

/-- struct CompressorState. -/
structure CompressorState where
  threshold_db : ℚ
  ratio : ℚ
  attack_coeff : ℚ
  release_coeff : ℚ
  envelope : ℚ
  makeup_gain : ℚ

/-- impl Default for CompressorState. -/
def CompressorState.default : CompressorState :=
  { threshold_db := -24, ratio := 4, attack_coeff := 0, release_coeff := 0,
    envelope := 0, makeup_gain := 1 }

/-- CompressorState::update_coeffs. -/
def CompressorState.update_coeffs (c : CompressorState) (F : FloatOps)
    (attack_ms release_ms sample_rate : ℚ) : CompressorState :=
  { c with attack_coeff := F.exp (-1 / (attack_ms * (1 / 1000) * sample_rate)),
           release_coeff := F.exp (-1 / (release_ms * (1 / 1000) * sample_rate)) }

/-- The stereo-linked peak detector of CompressorState::process_stereo:
peak in dB with a -120 dB floor for peaks at or below 1e-10. -/
def compPeakDb (F : FloatOps) (in_l in_r : ℚ) : ℚ :=
  let peak := max |in_l| |in_r|
  if peak > 1 / 10000000000 then 20 * F.log10 peak else -120

/-- CompressorState::process_stereo. -/
def CompressorState.process_stereo (c : CompressorState) (F : FloatOps)
    (in_l in_r : ℚ) : CompressorState × ℚ × ℚ :=
  let peak_db := compPeakDb F in_l in_r
  let gain_reduction :=
    if peak_db > c.threshold_db then
      let excess := peak_db - c.threshold_db
      excess - excess / c.ratio
    else 0
  let coeff := if gain_reduction > c.envelope then c.attack_coeff
               else c.release_coeff
  let envelope := gain_reduction + coeff * (c.envelope - gain_reduction)
  let gain := F.pow10 (-envelope / 20) * c.makeup_gain
  ({ c with envelope := envelope }, in_l * gain, in_r * gain)

/-- struct LimiterState. -/
structure LimiterState where
  threshold : ℚ
  release_coeff : ℚ
  envelope : ℚ

/-- impl Default for LimiterState (threshold 0.98, release 0.9995). -/
def LimiterState.default : LimiterState :=
  { threshold := 49 / 50, release_coeff := 9995 / 10000, envelope := 0 }

/-- LimiterState::process_stereo: instant attack, multiplicative release. -/
def LimiterState.process_stereo (l : LimiterState) (in_l in_r : ℚ) :
    LimiterState × ℚ × ℚ :=
  let peak := max |in_l| |in_r|
  let env1 :=
    if peak > l.threshold then
      let target_gain := 1 - l.threshold / peak
      if target_gain > l.envelope then target_gain else l.envelope
    else l.envelope
  let env2 := env1 * l.release_coeff
  let gain := 1 - env2
  ({ l with envelope := env2 }, in_l * gain, in_r * gain)

/-- struct ReverbState (Schroeder reverb, decorrelated stereo). -/
structure ReverbState where
  mix : ℚ
  enabled : Bool
  comb_buffers_l : List (List ℚ)
  comb_buffers_r : List (List ℚ)
  comb_indices : List ℕ
  comb_feedback : ℚ
  ap_buffers_l : List (List ℚ)
  ap_buffers_r : List (List ℚ)
  ap_indices : List ℕ
  ap_feedback : ℚ

/-- ReverbState::new: buffer lengths scaled from 48 kHz reference delays. -/
def ReverbState.new (sample_rate : ℚ) : ReverbState :=
  let scale := sample_rate / 48000
  let comb_delays_l : List ℚ := [1557, 1617, 1491, 1422, 1277, 1356]
  let comb_delays_r : List ℚ := [1583, 1601, 1511, 1447, 1291, 1373]
  let ap_delays : List ℚ := [225, 556, 441, 341]
  { mix := 0,
    enabled := false,
    comb_buffers_l := comb_delays_l.map
      (fun d => List.replicate (usizeOfF32 (d * scale)) 0),
    comb_buffers_r := comb_delays_r.map
      (fun d => List.replicate (usizeOfF32 (d * scale)) 0),
    comb_indices := [0, 0, 0, 0, 0, 0],
    comb_feedback := 84 / 100,
    ap_buffers_l := ap_delays.map
      (fun d => List.replicate (usizeOfF32 (d * scale)) 0),
    ap_buffers_r := ap_delays.map
      (fun d => List.replicate (usizeOfF32 (d * scale)) 0),
    ap_indices := [0, 0, 0, 0],
    ap_feedback := 1 / 2 }

/-- One iteration of the parallel comb-filter loop of
ReverbState::process_stereo; the accumulator carries the running sums. -/
def combStep (in_l in_r : ℚ) (acc : ReverbState × ℚ × ℚ) (i : ℕ) :
    ReverbState × ℚ × ℚ :=
  let r := acc.1
  let idx := r.comb_indices.getD i 0
  let buf_l := r.comb_buffers_l.getD i []
  let buf_r := r.comb_buffers_r.getD i []
  let delayed_l := buf_l.getD idx 0
  let delayed_r := buf_r.getD idx 0
  let buf_l2 := buf_l.set idx (in_l + delayed_l * r.comb_feedback)
  let buf_r2 := buf_r.set idx (in_r + delayed_r * r.comb_feedback)
  ({ r with comb_buffers_l := r.comb_buffers_l.set i buf_l2,
            comb_buffers_r := r.comb_buffers_r.set i buf_r2,
            comb_indices := r.comb_indices.set i ((idx + 1) % buf_l2.length) },
   acc.2.1 + delayed_l, acc.2.2 + delayed_r)

/-- One iteration of the series allpass loop of ReverbState::process_stereo;
the accumulator carries the running outputs. -/
def apStep (acc : ReverbState × ℚ × ℚ) (i : ℕ) : ReverbState × ℚ × ℚ :=
  let r := acc.1
  let out_l := acc.2.1
  let out_r := acc.2.2
  let idx := r.ap_indices.getD i 0
  let buf_l := r.ap_buffers_l.getD i []
  let buf_r := r.ap_buffers_r.getD i []
  let delayed_l := buf_l.getD idx 0
  let delayed_r := buf_r.getD idx 0
  let new_l := out_l + delayed_l * r.ap_feedback
  let new_r := out_r + delayed_r * r.ap_feedback
  let buf_l2 := buf_l.set idx out_l
  let buf_r2 := buf_r.set idx out_r
  ({ r with ap_buffers_l := r.ap_buffers_l.set i buf_l2,
            ap_buffers_r := r.ap_buffers_r.set i buf_r2,
            ap_indices := r.ap_indices.set i ((idx + 1) % buf_l2.length) },
   delayed_l - new_l * r.ap_feedback, delayed_r - new_r * r.ap_feedback)

/-- ReverbState::process_stereo: early return when disabled, otherwise
6 parallel combs, average, 4 series allpasses, dry/wet mix (wet scaled 0.4). -/
def ReverbState.process_stereo (r : ReverbState) (in_l in_r : ℚ) :
    ReverbState × ℚ × ℚ :=
  if !r.enabled then (r, in_l, in_r)
  else
    let s1 := (List.range 6).foldl (combStep in_l in_r) (r, 0, 0)
    let out_l := s1.2.1 / 6
    let out_r := s1.2.2 / 6
    let s2 := (List.range 4).foldl apStep (s1.1, out_l, out_r)
    let dry := 1 - r.mix
    let wet := r.mix * (4 / 10)
    (s2.1, in_l * dry + s2.2.1 * wet, in_r * dry + s2.2.2 * wet)

/-- struct WasmDspProcessor: the main chain EQ -> compressor -> reverb ->
limiter, with cached EQ frequency/Q settings. -/
structure WasmDspProcessor where
  sample_rate : ℚ
  eq_low : BiquadState
  eq_mid : BiquadState
  eq_high : BiquadState
  compressor : CompressorState
  limiter : LimiterState
  reverb : ReverbState
  eq_low_freq : ℚ
  eq_mid_freq : ℚ
  eq_high_freq : ℚ
  eq_mid_q : ℚ

/-- WasmDspProcessor::new: defaults, then flat filter initialization and
compressor coefficient computation (attack 5 ms, release 100 ms). -/
def WasmDspProcessor.new (F : FloatOps) (sample_rate : ℚ) : WasmDspProcessor :=
  let processor : WasmDspProcessor :=
    { sample_rate := sample_rate,
      eq_low := BiquadState.default,
      eq_mid := BiquadState.default,
      eq_high := BiquadState.default,
      compressor := CompressorState.default,
      limiter := LimiterState.default,
      reverb := ReverbState.new sample_rate,
      eq_low_freq := 80,
      eq_mid_freq := 1000,
      eq_high_freq := 10000,
      eq_mid_q := 707 / 1000 }
  let processor :=
    { processor with eq_low := processor.eq_low.set_low_shelf F 80 0 sample_rate }
  let processor :=
    { processor with eq_mid :=
        processor.eq_mid.set_peaking F 1000 0 (707 / 1000) sample_rate }
  let processor :=
    { processor with eq_high :=
        processor.eq_high.set_high_shelf F 10000 0 sample_rate }
  { processor with compressor :=
      processor.compressor.update_coeffs F 5 100 sample_rate }

/-- WasmDspProcessor::set_eq_low. -/
def WasmDspProcessor.set_eq_low (p : WasmDspProcessor) (F : FloatOps)
    (gain_db : ℚ) : WasmDspProcessor :=
  { p with eq_low := p.eq_low.set_low_shelf F p.eq_low_freq gain_db p.sample_rate }

/-- WasmDspProcessor::set_eq_mid. -/
def WasmDspProcessor.set_eq_mid (p : WasmDspProcessor) (F : FloatOps)
    (gain_db : ℚ) : WasmDspProcessor :=
  { p with eq_mid :=
      p.eq_mid.set_peaking F p.eq_mid_freq gain_db p.eq_mid_q p.sample_rate }

/-- WasmDspProcessor::set_eq_high. -/
def WasmDspProcessor.set_eq_high (p : WasmDspProcessor) (F : FloatOps)
    (gain_db : ℚ) : WasmDspProcessor :=
  { p with eq_high :=
      p.eq_high.set_high_shelf F p.eq_high_freq gain_db p.sample_rate }

/-- WasmDspProcessor::set_reverb: clamps the mix to [0,1] and enables the
stage exactly when the raw argument exceeds 0.001. -/
def WasmDspProcessor.set_reverb (p : WasmDspProcessor) (mix : ℚ) :
    WasmDspProcessor :=
  { p with reverb := { p.reverb with
                       mix := rclamp mix 0 1,
                       enabled := decide (mix > 1 / 1000) } }

/-- WasmDspProcessor::process_sample: EQ chain, compressor, reverb, limiter. -/
def WasmDspProcessor.process_sample (p : WasmDspProcessor) (F : FloatOps)
    (in_l in_r : ℚ) : WasmDspProcessor × ℚ × ℚ :=
  let s1 := p.eq_low.process_stereo in_l in_r
  let s2 := p.eq_mid.process_stereo s1.2.1 s1.2.2
  let s3 := p.eq_high.process_stereo s2.2.1 s2.2.2
  let s4 := p.compressor.process_stereo F s3.2.1 s3.2.2
  let s5 := p.reverb.process_stereo s4.2.1 s4.2.2
  let s6 := p.limiter.process_stereo s5.2.1 s5.2.2
  ({ p with eq_low := s1.1, eq_mid := s2.1, eq_high := s3.1,
            compressor := s4.1, reverb := s5.1, limiter := s6.1 },
   s6.2)

/-- One loop iteration of WasmDspProcessor::process_block_stereo: process the
pair at `idx` and write both outputs at `idx`. -/
def processIdx (F : FloatOps) (input_l input_r : List ℚ)
    (st : WasmDspProcessor × List ℚ × List ℚ) (idx : ℕ) :
    WasmDspProcessor × List ℚ × List ℚ :=
  let s := st.1.process_sample F (input_l.getD idx 0) (input_r.getD idx 0)
  (s.1, st.2.1.set idx s.2.1, st.2.2.set idx s.2.2)

/-- `processRange F iL iR st start n` runs `processIdx` at the consecutive
indices `start, start+1, ..., start+n-1`. -/
def processRange (F : FloatOps) (input_l input_r : List ℚ) :
    WasmDspProcessor × List ℚ × List ℚ → ℕ → ℕ →
    WasmDspProcessor × List ℚ × List ℚ
  | st, _, 0 => st
  | st, start, n + 1 =>
      processRange F input_l input_r (processIdx F input_l input_r st start)
        (start + 1) n

/-- The outer cache-blocking loop of WasmDspProcessor::process_block_stereo:
each of the `blocks` iterations processes 4 consecutive indices. -/
def blockLoop (F : FloatOps) (input_l input_r : List ℚ) :
    WasmDspProcessor × List ℚ × List ℚ → ℕ → ℕ →
    WasmDspProcessor × List ℚ × List ℚ
  | st, _, 0 => st
  | st, base, b + 1 =>
      blockLoop F input_l input_r (processRange F input_l input_r st base 4)
        (base + 4) b

/-- The min of the four buffer lengths taken by process_block_stereo. -/
def blockLen (input_l input_r output_l output_r : List ℚ) : ℕ :=
  ((input_l.length.min input_r.length).min output_l.length).min output_r.length

/-- WasmDspProcessor::process_block_stereo: blocks of 4, then the remainder.
Outputs are modeled functionally: the returned lists are the two output
buffers after the call. -/
def WasmDspProcessor.process_block_stereo (p : WasmDspProcessor) (F : FloatOps)
    (input_l input_r output_l output_r : List ℚ) :
    WasmDspProcessor × List ℚ × List ℚ :=
  let len := blockLen input_l input_r output_l output_r
  let blocks := len / 4
  let remainder := len % 4
  let st := blockLoop F input_l input_r (p, output_l, output_r) 0 blocks
  processRange F input_l input_r st (len - remainder) remainder

/-- WasmDspProcessor::reset: EQ histories dropped and EQ re-initialized flat
with the cached frequencies/Q; compressor and limiter envelopes cleared.
The reverb field is not touched by the source. -/
def WasmDspProcessor.reset (p : WasmDspProcessor) (F : FloatOps) :
    WasmDspProcessor :=
  let p1 := { p with eq_low := BiquadState.default,
                     eq_mid := BiquadState.default,
                     eq_high := BiquadState.default,
                     compressor := { p.compressor with envelope := 0 },
                     limiter := { p.limiter with envelope := 0 } }
  { p1 with
    eq_low := p1.eq_low.set_low_shelf F p1.eq_low_freq 0 p1.sample_rate,
    eq_mid := p1.eq_mid.set_peaking F p1.eq_mid_freq 0 p1.eq_mid_q p1.sample_rate,
    eq_high := p1.eq_high.set_high_shelf F p1.eq_high_freq 0 p1.sample_rate }

/-- The sequential reference semantics of block processing: fold
process_sample over a list of stereo input pairs, collecting the outputs
in order. -/
def processPairs (F : FloatOps) : WasmDspProcessor → List (ℚ × ℚ) →
    WasmDspProcessor × List (ℚ × ℚ)
  | p, [] => (p, [])
  | p, a :: rest =>
      let s := p.process_sample F a.1 a.2
      let t := processPairs F s.1 rest
      (t.1, s.2 :: t.2)

/-- struct PhaseVocoder (simplified pitch shifter). -/
structure PhaseVocoder where
  fftSize : ℕ
  hopSize : ℕ
  sampleRate : ℚ
  pitch_shift : ℚ

/-- PhaseVocoder::new. -/
def PhaseVocoder.new (fft_size : ℕ) (sample_rate : ℚ) : PhaseVocoder :=
  { fftSize := fft_size, hopSize := fft_size / 4, sampleRate := sample_rate,
    pitch_shift := 1 }

/-- PhaseVocoder::set_pitch_shift: clamps the ratio to [0.5, 2]. -/
def PhaseVocoder.set_pitch_shift (pv : PhaseVocoder) (shift : ℚ) :
    PhaseVocoder :=
  { pv with pitch_shift := rclamp shift (1 / 2) 2 }

/-- PhaseVocoder::process: output[i] = input[(i * pitch_shift) as usize] when
that index is below min(len_in, len_out), else 0. -/
def PhaseVocoder.process (pv : PhaseVocoder) (input output : List ℚ) :
    List ℚ :=
  let len := input.length.min output.length
  (List.range len).foldl
    (fun (out : List ℚ) (i : ℕ) =>
      let pos := usizeOfF32 ((i : ℚ) * pv.pitch_shift)
      out.set i (if pos < len then input.getD pos 0 else 0))
    output

/-- struct GranularSynth. -/
structure GranularSynth where
  grain_size : ℕ
  grain_density : ℚ
  buffer : List ℚ

/-- GranularSynth::new. -/
def GranularSynth.new (grain_size : ℕ) : GranularSynth :=
  { grain_size := grain_size, grain_density := 1 / 2, buffer := [] }

/-- GranularSynth::load_buffer. -/
def GranularSynth.load_buffer (g : GranularSynth) (buffer : List ℚ) :
    GranularSynth :=
  { g with buffer := buffer }

/-- GranularSynth::process: early return when no buffer is loaded; otherwise
fill the output from the buffer modulo its length under a half-sine grain
envelope scaled by density. -/
def GranularSynth.process (g : GranularSynth) (F : FloatOps)
    (output : List ℚ) : List ℚ :=
  if g.buffer.isEmpty then output
  else
    let buf_len := g.buffer.length
    (List.range output.length).foldl
      (fun (out : List ℚ) (i : ℕ) =>
        let grain_pos := ((i % g.grain_size : ℕ) : ℚ) / (g.grain_size : ℚ)
        let envelope := F.sin (grain_pos * ratPi)
        let buf_idx := i % buf_len
        out.set i (g.buffer.getD buf_idx 0 * envelope * g.grain_density))
      output

/-! ### Definitions supporting the claims -/

/-- The predicate on a EQ biquad stage of having an identity transfer
function together with consistent history (outputs mirror inputs). -/
def FlatBiquad (b : BiquadState) : Prop :=
  b.b0 = 1 ∧ b.b1 = b.a1 ∧ b.b2 = b.a2 ∧
  b.y1_l = b.x1_l ∧ b.y2_l = b.x2_l ∧ b.y1_r = b.x1_r ∧ b.y2_r = b.x2_r

/-- A stereo sample pair is quiet: its detector level is at or below the
default compressor threshold (-24 dB) and its linear peak is at or below the
default limiter threshold (0.98). -/
def QuietPair (F : FloatOps) (l r : ℚ) : Prop :=
  compPeakDb F l r ≤ -24 ∧ max |l| |r| ≤ 49 / 50

instance quietPairDecidable (F : FloatOps) (l r : ℚ) :
    Decidable (QuietPair F l r) :=
  inferInstanceAs (Decidable (_ ∧ _))

/-- The processor state in which the whole chain is transparent: flat EQ
stages, compressor at rest with unit makeup and default threshold, limiter at
rest with default threshold, reverb disabled. -/
def FlatChainState (p : WasmDspProcessor) : Prop :=
  FlatBiquad p.eq_low ∧ FlatBiquad p.eq_mid ∧ FlatBiquad p.eq_high ∧
  p.compressor.envelope = 0 ∧ p.compressor.makeup_gain = 1 ∧
  p.compressor.threshold_db = -24 ∧ p.limiter.envelope = 0 ∧
  p.limiter.threshold = 49 / 50 ∧ p.reverb.enabled = false

/-- Two processors agree on everything that processing samples never
mutates: sample rate, cached EQ settings, compressor parameters, limiter
parameters, and (for the purpose of disabled-reverb runs) the reverb state. -/
def SameSettings (p q : WasmDspProcessor) : Prop :=
  p.sample_rate = q.sample_rate ∧
  p.eq_low_freq = q.eq_low_freq ∧ p.eq_mid_freq = q.eq_mid_freq ∧
  p.eq_high_freq = q.eq_high_freq ∧ p.eq_mid_q = q.eq_mid_q ∧
  p.compressor.threshold_db = q.compressor.threshold_db ∧
  p.compressor.ratio = q.compressor.ratio ∧
  p.compressor.attack_coeff = q.compressor.attack_coeff ∧
  p.compressor.release_coeff = q.compressor.release_coeff ∧
  p.compressor.makeup_gain = q.compressor.makeup_gain ∧
  p.limiter.threshold = q.limiter.threshold ∧
  p.limiter.release_coeff = q.limiter.release_coeff ∧
  p.reverb = q.reverb

/-- All reverb delay buffers hold only zeros. -/
def ReverbState.allZero (r : ReverbState) : Bool :=
  r.comb_buffers_l.all (fun b => b.all (fun x => decide (x = 0))) &&
  r.comb_buffers_r.all (fun b => b.all (fun x => decide (x = 0))) &&
  r.ap_buffers_l.all (fun b => b.all (fun x => decide (x = 0))) &&
  r.ap_buffers_r.all (fun b => b.all (fun x => decide (x = 0)))

/-- Facts that the true f32 transcendental functions satisfy, used to pin
the model down when refuting claims: powf(10,0) = 1 and log10(1) = 0 hold
exactly in f32; exp(-1/240) = 0.9958429... lies in [0.9958, 0.996]; and
10^(-y) is at most 1 - y for y in [1/400, 1/100] (with huge slack against
f32 rounding). -/
def FloatOps.Reasonable (F : FloatOps) : Prop :=
  F.pow10 0 = 1 ∧ F.log10 1 = 0 ∧
  4979 / 5000 ≤ F.exp (-1 / 240) ∧ F.exp (-1 / 240) ≤ 498 / 500 ∧
  ∀ y : ℚ, 1 / 400 ≤ y → y ≤ 1 / 100 → F.pow10 (-y) ≤ 1 - y

/-- A freshly constructed processor whose three EQ gains have then been
explicitly set to 0 dB (the C1 scenario). -/
def flatProcessor (F : FloatOps) (sr : ℚ) : WasmDspProcessor :=
  (((WasmDspProcessor.new F sr).set_eq_low F 0).set_eq_mid F 0).set_eq_high F 0

/-- Claim C1 as stated: with all three EQ gains set to 0 dB and no other
setters called, process_block_stereo output equals input within 1e-5 for
every input (quantified over all float-operation instances consistent with
the true f32 functions, all positive sample rates, and all equal-length
buffers). -/
def flatEqIdentityClaim : Prop :=
  ∀ F : FloatOps, F.Reasonable → ∀ sr : ℚ, 0 < sr →
    ∀ iL iR oL oR : List ℚ,
      iR.length = iL.length → oL.length = iL.length → oR.length = iL.length →
      ∀ i : ℕ, i < iL.length →
        |((flatProcessor F sr).process_block_stereo F iL iR oL oR).2.1.getD i 0
          - iL.getD i 0| ≤ 1 / 100000 ∧
        |((flatProcessor F sr).process_block_stereo F iL iR oL oR).2.2.getD i 0
          - iR.getD i 0| ≤ 1 / 100000

/-- Claim C2's structural assertion as stated: reset clears the reverb comb
and allpass delay buffers (for every processor and float-ops instance). -/
def resetClearsReverbClaim : Prop :=
  ∀ (F : FloatOps) (p : WasmDspProcessor), (p.reset F).reverb.allZero = true

/-- Claim C5 as stated: process maps output index i to the input sample at
index round(i * ratio) (nearest-sample lookup), or 0 out of range. -/
def pitchRoundLookupClaim : Prop :=
  ∀ (pv : PhaseVocoder) (input output : List ℚ) (i : ℕ),
    i < input.length.min output.length →
    (pv.process input output).getD i 0 =
      if (round ((i : ℚ) * pv.pitch_shift)).toNat < input.length.min output.length
      then input.getD ((round ((i : ℚ) * pv.pitch_shift)).toNat) 0
      else 0

/-- Outputs of n consecutive process_stereo calls of the limiter on a
constant stereo input. -/
def LimiterState.runConst : LimiterState → ℚ → ℚ → ℕ → List (ℚ × ℚ)
  | _, _, _, 0 => []
  | l, a, b, n + 1 =>
      let s := l.process_stereo a b
      s.2 :: LimiterState.runConst s.1 a b n

/-- The limiter state after a sequence of process_stereo calls. -/
def LimiterState.runSeq (l : LimiterState) (inputs : List (ℚ × ℚ)) :
    LimiterState :=
  inputs.foldl (fun s pr => (s.process_stereo pr.1 pr.2).1) l

/-- A concrete FloatOps instance: trigonometric values fixed (sin = 0,
cos = 0, sqrt = 1), exp constantly 0.9958 (the value of exp(-1/240) to
4 places), log10 constantly 0 (the exact f32 value of log10(1)), and
pow10 x = 1 + x (which satisfies pow10 0 = 1 and pow10 (-y) <= 1 - y). -/
def opsA : FloatOps :=
  { sin := fun _ => 0, cos := fun _ => 0, sqrt := fun _ => 1,
    exp := fun _ => 4979 / 5000, log10 := fun _ => 0, pow10 := fun x => 1 + x }

/-- Like opsA but with log10 constantly -2 (the exact f32 value of
log10(0.01)), for evaluating the chain on quiet inputs. -/
def opsB : FloatOps :=
  { sin := fun _ => 0, cos := fun _ => 0, sqrt := fun _ => 1,
    exp := fun _ => 4979 / 5000, log10 := fun _ => -2, pow10 := fun x => 1 + x }

/-- A processor that has actually used its reverb: constructed at 480 Hz
(small delay buffers), reverb mix set to 0.5, one sample processed. Its
comb buffers hold a nonzero sample. -/
def reverbDirty : WasmDspProcessor :=
  ((((WasmDspProcessor.new opsA 480).set_reverb (1 / 2))).process_sample
    opsA 1 1).1

/-! ### List helper lemmas -/

theorem take_set_succ {α : Type*} (l : List α) (i : ℕ) (v : α)
    (h : i < l.length) : (l.set i v).take (i + 1) = l.take i ++ [v] := by
  rw [List.set_eq_take_cons_drop v h, List.take_append_eq_append_take]
  have hl : (l.take i).length = i := by simp [List.length_take]; omega
  rw [List.take_of_length_le (by omega : (l.take i).length ≤ i + 1), hl]
  simp

theorem getD_set_general {α : Type*} (l : List α) (i j : ℕ) (v d : α) :
    (l.set i v).getD j d
      = if i = j ∧ j < l.length then v else l.getD j d := by
  rw [List.getD_eq_getElem?_getD, List.getD_eq_getElem?_getD, List.getElem?_set]
  rcases Decidable.em (i = j) with heq | hne
  · subst heq
    rcases Decidable.em (i < l.length) with hlt | hge
    · simp [hlt]
    · have hnone : l[i]? = none := List.getElem?_eq_none (by omega)
      simp [hge, hnone]
  · simp [hne]

/-! ### Characterization of the block-processing loops -/

theorem processRange_succ (F : FloatOps) (iL iR : List ℚ)
    (st : WasmDspProcessor × List ℚ × List ℚ) (start n : ℕ) :
    processRange F iL iR st start (n + 1)
      = processRange F iL iR (processIdx F iL iR st start) (start + 1) n := rfl

theorem processRange_add (F : FloatOps) (iL iR : List ℚ) :
    ∀ (m n start : ℕ) (st : WasmDspProcessor × List ℚ × List ℚ),
      processRange F iL iR st start (m + n)
        = processRange F iL iR (processRange F iL iR st start m) (start + m) n := by
  intro m
  induction m with
  | zero => intro n start st; simp [processRange]
  | succ m ih =>
      intro n start st
      have h1 : m + 1 + n = (m + n) + 1 := by omega
      rw [h1, processRange_succ, processRange_succ, ih]
      have h2 : start + 1 + m = start + (m + 1) := by omega
      rw [h2]

theorem blockLoop_eq (F : FloatOps) (iL iR : List ℚ) :
    ∀ (b base : ℕ) (st : WasmDspProcessor × List ℚ × List ℚ),
      blockLoop F iL iR st base b = processRange F iL iR st base (4 * b) := by
  intro b
  induction b with
  | zero => intro base st; simp [blockLoop, processRange]
  | succ b ih =>
      intro base st
      show blockLoop F iL iR (processRange F iL iR st base 4) (base + 4) b = _
      rw [ih]
      have h1 : 4 * (b + 1) = 4 + 4 * b := by omega
      rw [h1, processRange_add]

theorem process_block_stereo_eq_range (F : FloatOps) (p : WasmDspProcessor)
    (iL iR oL oR : List ℚ) :
    p.process_block_stereo F iL iR oL oR
      = processRange F iL iR (p, oL, oR) 0 (blockLen iL iR oL oR) := by
  show (let len := blockLen iL iR oL oR;
        let blocks := len / 4;
        let remainder := len % 4;
        let st := blockLoop F iL iR (p, oL, oR) 0 blocks;
        processRange F iL iR st (len - remainder) remainder) = _
  simp only []
  rw [blockLoop_eq]
  set len := blockLen iL iR oL oR with hlen
  have h2 : len - len % 4 = 0 + 4 * (len / 4) := by omega
  rw [h2, ← processRange_add]
  have h1 : 4 * (len / 4) + len % 4 = len := Nat.div_add_mod len 4
  rw [h1]

theorem processRange_eq (F : FloatOps) (iL iR : List ℚ) :
    ∀ (n start : ℕ) (p : WasmDspProcessor) (oL oR : List ℚ),
      start + n ≤ iL.length → start + n ≤ iR.length →
      start + n ≤ oL.length → start + n ≤ oR.length →
      processRange F iL iR (p, oL, oR) start n =
        ((processPairs F p (((iL.zip iR).drop start).take n)).1,
         oL.take start ++
           ((processPairs F p (((iL.zip iR).drop start).take n)).2.map Prod.fst)
           ++ oL.drop (start + n),
         oR.take start ++
           ((processPairs F p (((iL.zip iR).drop start).take n)).2.map Prod.snd)
           ++ oR.drop (start + n)) := by
  intro n
  induction n with
  | zero =>
      intro start p oL oR h1 h2 h3 h4
      simp [processRange, processPairs, List.take_append_drop]
  | succ n ih =>
      intro start p oL oR h1 h2 h3 h4
      have hiL : start < iL.length := by omega
      have hiR : start < iR.length := by omega
      have hoL : start < oL.length := by omega
      have hoR : start < oR.length := by omega
      have hzl : start < (iL.zip iR).length := by
        rw [List.length_zip]; exact lt_min hiL hiR
      have hdrop : (iL.zip iR).drop start
          = (iL.getD start 0, iR.getD start 0) :: (iL.zip iR).drop (start + 1) := by
        rw [List.getD_eq_getElem iL 0 hiL, List.getD_eq_getElem iR 0 hiR,
            ← List.getElem_zip (h := hzl), List.getElem_cons_drop]
      rw [processRange_succ]
      have hidx : processIdx F iL iR (p, oL, oR) start
          = ((p.process_sample F (iL.getD start 0) (iR.getD start 0)).1,
             oL.set start (p.process_sample F (iL.getD start 0) (iR.getD start 0)).2.1,
             oR.set start (p.process_sample F (iL.getD start 0) (iR.getD start 0)).2.2) := rfl
      rw [hidx]
      rw [ih (start + 1) _ _ _
            (by omega) (by omega)
            (by rw [List.length_set]; omega) (by rw [List.length_set]; omega)]
      rw [hdrop, List.take_succ_cons]
      have hpp : processPairs F p
          ((iL.getD start 0, iR.getD start 0) :: ((iL.zip iR).drop (start + 1)).take n)
          = ((processPairs F
                (p.process_sample F (iL.getD start 0) (iR.getD start 0)).1
                (((iL.zip iR).drop (start + 1)).take n)).1,
             (p.process_sample F (iL.getD start 0) (iR.getD start 0)).2 ::
               (processPairs F
                 (p.process_sample F (iL.getD start 0) (iR.getD start 0)).1
                 (((iL.zip iR).drop (start + 1)).take n)).2) := rfl
      rw [hpp]
      have harr : start + 1 + n = start + (n + 1) := by omega
      rw [take_set_succ oL start _ hoL, take_set_succ oR start _ hoR,
          List.drop_set_of_lt _ _ (by omega : start < start + 1 + n),
          List.drop_set_of_lt _ _ (by omega : start < start + 1 + n),
          harr]
      simp [List.append_assoc]

theorem process_block_spec (F : FloatOps) (p : WasmDspProcessor)
    (iL iR oL oR : List ℚ) :
    p.process_block_stereo F iL iR oL oR =
      ((processPairs F p ((iL.zip iR).take (blockLen iL iR oL oR))).1,
       (processPairs F p ((iL.zip iR).take (blockLen iL iR oL oR))).2.map
           Prod.fst ++ oL.drop (blockLen iL iR oL oR),
       (processPairs F p ((iL.zip iR).take (blockLen iL iR oL oR))).2.map
           Prod.snd ++ oR.drop (blockLen iL iR oL oR)) := by
  rw [process_block_stereo_eq_range]
  have h := processRange_eq F iL iR (blockLen iL iR oL oR) 0 p oL oR
    (by simp [blockLen, min_le_iff]) (by simp [blockLen, min_le_iff])
    (by simp [blockLen, min_le_iff]) (by simp [blockLen, min_le_iff])
  simpa using h

/-! ### Flatness of the 0 dB filter designs -/

theorem lowShelfFromScalars_flat (c sn r1 r2 : ℚ)
    (h : (lowShelfFromScalars 1 c sn r1 r2).1 ≠ 0) :
    (lowShelfFromScalars 1 c sn r1 r2).2.1 = 1 ∧
    (lowShelfFromScalars 1 c sn r1 r2).2.2.1
      = (lowShelfFromScalars 1 c sn r1 r2).2.2.2.2.1 ∧
    (lowShelfFromScalars 1 c sn r1 r2).2.2.2.1
      = (lowShelfFromScalars 1 c sn r1 r2).2.2.2.2.2 := by
  simp only [lowShelfFromScalars] at h ⊢
  refine ⟨?_, ?_, ?_⟩
  · have hnum : (1 : ℚ) * ((1 + 1) - (1 - 1) * c + 2 * r1 * (sn / 2 * r2))
        = (1 + 1) + (1 - 1) * c + 2 * r1 * (sn / 2 * r2) := by ring
    rw [hnum]; exact div_self h
  · have hnum : (2 : ℚ) * 1 * ((1 - 1) - (1 + 1) * c)
        = -2 * ((1 - 1) + (1 + 1) * c) := by ring
    rw [hnum]
  · have hnum : (1 : ℚ) * ((1 + 1) - (1 - 1) * c - 2 * r1 * (sn / 2 * r2))
        = (1 + 1) + (1 - 1) * c - 2 * r1 * (sn / 2 * r2) := by ring
    rw [hnum]

theorem peakingFromScalars_flat (c sn q : ℚ)
    (h : (peakingFromScalars 1 c sn q).1 ≠ 0) :
    (peakingFromScalars 1 c sn q).2.1 = 1 ∧
    (peakingFromScalars 1 c sn q).2.2.1
      = (peakingFromScalars 1 c sn q).2.2.2.2.1 ∧
    (peakingFromScalars 1 c sn q).2.2.2.1
      = (peakingFromScalars 1 c sn q).2.2.2.2.2 := by
  simp only [peakingFromScalars] at h
  refine ⟨?_, ?_, ?_⟩
  · simp only [peakingFromScalars]
    have hnum : (1 : ℚ) + sn / (2 * q) * 1 = 1 + sn / (2 * q) / 1 := by ring
    rw [hnum]; exact div_self h
  · rfl
  · simp only [peakingFromScalars]
    have hnum : (1 : ℚ) - sn / (2 * q) * 1 = 1 - sn / (2 * q) / 1 := by ring
    rw [hnum]

theorem highShelfFromScalars_flat (c sn r1 r2 : ℚ)
    (h : (highShelfFromScalars 1 c sn r1 r2).1 ≠ 0) :
    (highShelfFromScalars 1 c sn r1 r2).2.1 = 1 ∧
    (highShelfFromScalars 1 c sn r1 r2).2.2.1
      = (highShelfFromScalars 1 c sn r1 r2).2.2.2.2.1 ∧
    (highShelfFromScalars 1 c sn r1 r2).2.2.2.1
      = (highShelfFromScalars 1 c sn r1 r2).2.2.2.2.2 := by
  simp only [highShelfFromScalars] at h ⊢
  refine ⟨?_, ?_, ?_⟩
  · have hnum : (1 : ℚ) * ((1 + 1) + (1 - 1) * c + 2 * r1 * (sn / 2 * r2))
        = (1 + 1) - (1 - 1) * c + 2 * r1 * (sn / 2 * r2) := by ring
    rw [hnum]; exact div_self h
  · have hnum : (-2 : ℚ) * 1 * ((1 - 1) + (1 + 1) * c)
        = 2 * ((1 - 1) - (1 + 1) * c) := by ring
    rw [hnum]
  · have hnum : (1 : ℚ) * ((1 + 1) + (1 - 1) * c - 2 * r1 * (sn / 2 * r2))
        = (1 + 1) - (1 - 1) * c - 2 * r1 * (sn / 2 * r2) := by ring
    rw [hnum]

theorem pow10_zero_div (F : FloatOps) (hF : F.pow10 0 = 1) :
    F.pow10 ((0 : ℚ) / 40) = 1 := by rw [zero_div]; exact hF

theorem lowShelfDesign_flat (F : FloatOps) (freq sr : ℚ)
    (hF : F.pow10 0 = 1) (h : (lowShelfDesign F freq 0 sr).1 ≠ 0) :
    (lowShelfDesign F freq 0 sr).2.1 = 1 ∧
    (lowShelfDesign F freq 0 sr).2.2.1
      = (lowShelfDesign F freq 0 sr).2.2.2.2.1 ∧
    (lowShelfDesign F freq 0 sr).2.2.2.1
      = (lowShelfDesign F freq 0 sr).2.2.2.2.2 := by
  unfold lowShelfDesign at h ⊢
  rw [pow10_zero_div F hF] at h ⊢
  exact lowShelfFromScalars_flat _ _ _ _ h

theorem peakingDesign_flat (F : FloatOps) (freq q sr : ℚ)
    (hF : F.pow10 0 = 1) (h : (peakingDesign F freq 0 q sr).1 ≠ 0) :
    (peakingDesign F freq 0 q sr).2.1 = 1 ∧
    (peakingDesign F freq 0 q sr).2.2.1
      = (peakingDesign F freq 0 q sr).2.2.2.2.1 ∧
    (peakingDesign F freq 0 q sr).2.2.2.1
      = (peakingDesign F freq 0 q sr).2.2.2.2.2 := by
  unfold peakingDesign at h ⊢
  rw [pow10_zero_div F hF] at h ⊢
  exact peakingFromScalars_flat _ _ _ h

theorem highShelfDesign_flat (F : FloatOps) (freq sr : ℚ)
    (hF : F.pow10 0 = 1) (h : (highShelfDesign F freq 0 sr).1 ≠ 0) :
    (highShelfDesign F freq 0 sr).2.1 = 1 ∧
    (highShelfDesign F freq 0 sr).2.2.1
      = (highShelfDesign F freq 0 sr).2.2.2.2.1 ∧
    (highShelfDesign F freq 0 sr).2.2.2.1
      = (highShelfDesign F freq 0 sr).2.2.2.2.2 := by
  unfold highShelfDesign at h ⊢
  rw [pow10_zero_div F hF] at h ⊢
  exact highShelfFromScalars_flat _ _ _ _ h

/-! ### Per-stage transparency lemmas -/

theorem flatBiquad_out (b : BiquadState) (hb : FlatBiquad b) (l r : ℚ) :
    (b.process_stereo l r).2 = (l, r) := by
  obtain ⟨h0, h1, h2, e1, e2, e3, e4⟩ := hb
  simp only [BiquadState.process_stereo, h0, h1, h2, e1, e2, e3, e4]
  refine congrArg₂ Prod.mk ?_ ?_ <;> ring

theorem flatBiquad_next (b : BiquadState) (hb : FlatBiquad b) (l r : ℚ) :
    FlatBiquad (b.process_stereo l r).1 := by
  obtain ⟨h0, h1, h2, e1, e2, e3, e4⟩ := hb
  refine ⟨h0, h1, h2, ?_, e1, ?_, e3⟩
  · show b.b0 * l + b.b1 * b.x1_l + b.b2 * b.x2_l
        - b.a1 * b.y1_l - b.a2 * b.y2_l = l
    rw [h0, h1, h2, e1, e2]; ring
  · show b.b0 * r + b.b1 * b.x1_r + b.b2 * b.x2_r
        - b.a1 * b.y1_r - b.a2 * b.y2_r = r
    rw [h0, h1, h2, e3, e4]; ring

theorem compressor_quiet (c : CompressorState) (F : FloatOps) (l r : ℚ)
    (hm : c.makeup_gain = 1) (he : c.envelope = 0) (hF : F.pow10 0 = 1)
    (hdb : compPeakDb F l r ≤ c.threshold_db) :
    c.process_stereo F l r = (c, l, r) := by
  obtain ⟨t, ra, ac, rc, env, mg⟩ := c
  dsimp only at hm he hdb
  subst hm he
  simp only [CompressorState.process_stereo]
  rw [if_neg (not_lt.mpr hdb)]
  norm_num [hF]

theorem limiter_quiet (li : LimiterState) (l r : ℚ) (he : li.envelope = 0)
    (hp : max |l| |r| ≤ li.threshold) :
    li.process_stereo l r = (li, l, r) := by
  obtain ⟨th, rc, env⟩ := li
  dsimp only at he hp
  subst he
  simp only [LimiterState.process_stereo]
  rw [if_neg (not_lt.mpr hp)]
  norm_num

theorem reverb_disabled (rv : ReverbState) (l r : ℚ)
    (h : rv.enabled = false) : rv.process_stereo l r = (rv, l, r) := by
  unfold ReverbState.process_stereo
  rw [h]
  rfl

theorem process_sample_flat (F : FloatOps) (p : WasmDspProcessor) (l r : ℚ)
    (hF : F.pow10 0 = 1) (hp : FlatChainState p) (hq : QuietPair F l r) :
    (p.process_sample F l r).2 = (l, r) ∧
      FlatChainState (p.process_sample F l r).1 := by
  obtain ⟨hb1, hb2, hb3, hce, hcm, hct, hle, hlt, hre⟩ := hp
  obtain ⟨hdb, hpk⟩ := hq
  have h1a : (p.eq_low.process_stereo l r).2.1 = l := by
    rw [flatBiquad_out p.eq_low hb1 l r]
  have h1b : (p.eq_low.process_stereo l r).2.2 = r := by
    rw [flatBiquad_out p.eq_low hb1 l r]
  have h2a : (p.eq_mid.process_stereo l r).2.1 = l := by
    rw [flatBiquad_out p.eq_mid hb2 l r]
  have h2b : (p.eq_mid.process_stereo l r).2.2 = r := by
    rw [flatBiquad_out p.eq_mid hb2 l r]
  have h3a : (p.eq_high.process_stereo l r).2.1 = l := by
    rw [flatBiquad_out p.eq_high hb3 l r]
  have h3b : (p.eq_high.process_stereo l r).2.2 = r := by
    rw [flatBiquad_out p.eq_high hb3 l r]
  have hcomp : p.compressor.process_stereo F l r = (p.compressor, l, r) :=
    compressor_quiet _ F l r hcm hce hF (by rw [hct]; exact hdb)
  have hrev : p.reverb.process_stereo l r = (p.reverb, l, r) :=
    reverb_disabled _ l r hre
  have hlim : p.limiter.process_stereo l r = (p.limiter, l, r) :=
    limiter_quiet _ l r hle (by rw [hlt]; exact hpk)
  simp only [WasmDspProcessor.process_sample, h1a, h1b, h2a, h2b, h3a, h3b,
    hcomp, hrev, hlim]
  refine ⟨by trivial, ?_⟩
  exact ⟨flatBiquad_next _ hb1 _ _, flatBiquad_next _ hb2 _ _,
    flatBiquad_next _ hb3 _ _, hce, hcm, hct, hle, hlt, hre⟩

theorem processPairs_flat (F : FloatOps) (hF : F.pow10 0 = 1) :
    ∀ (pairs : List (ℚ × ℚ)) (p : WasmDspProcessor),
      FlatChainState p → (∀ pr ∈ pairs, QuietPair F pr.1 pr.2) →
      (processPairs F p pairs).2 = pairs ∧
        FlatChainState (processPairs F p pairs).1 := by
  intro pairs
  induction pairs with
  | nil => intro p hp _; exact ⟨rfl, hp⟩
  | cons a rest ih =>
      intro p hp hq
      obtain ⟨hout, hnext⟩ :=
        process_sample_flat F p a.1 a.2 hF hp (hq a (List.mem_cons_self a rest))
      obtain ⟨hro, hrn⟩ := ih (p.process_sample F a.1 a.2).1 hnext
        (fun pr hpr => hq pr (List.mem_cons_of_mem a hpr))
      have hstep : processPairs F p (a :: rest)
          = ((processPairs F (p.process_sample F a.1 a.2).1 rest).1,
             (p.process_sample F a.1 a.2).2 ::
               (processPairs F (p.process_sample F a.1 a.2).1 rest).2) := rfl
      rw [hstep]
      refine ⟨?_, hrn⟩
      show (p.process_sample F a.1 a.2).2 ::
        (processPairs F (p.process_sample F a.1 a.2).1 rest).2 = a :: rest
      rw [hout, hro]

theorem flatBiquad_set_low (b : BiquadState) (F : FloatOps) (freq sr : ℚ)
    (hist : b.y1_l = b.x1_l ∧ b.y2_l = b.x2_l ∧ b.y1_r = b.x1_r ∧
      b.y2_r = b.x2_r)
    (hF : F.pow10 0 = 1) (h : (lowShelfDesign F freq 0 sr).1 ≠ 0) :
    FlatBiquad (b.set_low_shelf F freq 0 sr) := by
  obtain ⟨hd1, hd2, hd3⟩ := lowShelfDesign_flat F freq sr hF h
  exact ⟨hd1, hd2, hd3, hist.1, hist.2.1, hist.2.2.1, hist.2.2.2⟩

theorem flatBiquad_set_peaking (b : BiquadState) (F : FloatOps)
    (freq q sr : ℚ)
    (hist : b.y1_l = b.x1_l ∧ b.y2_l = b.x2_l ∧ b.y1_r = b.x1_r ∧
      b.y2_r = b.x2_r)
    (hF : F.pow10 0 = 1) (h : (peakingDesign F freq 0 q sr).1 ≠ 0) :
    FlatBiquad (b.set_peaking F freq 0 q sr) := by
  obtain ⟨hd1, hd2, hd3⟩ := peakingDesign_flat F freq q sr hF h
  exact ⟨hd1, hd2, hd3, hist.1, hist.2.1, hist.2.2.1, hist.2.2.2⟩

theorem flatBiquad_set_high (b : BiquadState) (F : FloatOps) (freq sr : ℚ)
    (hist : b.y1_l = b.x1_l ∧ b.y2_l = b.x2_l ∧ b.y1_r = b.x1_r ∧
      b.y2_r = b.x2_r)
    (hF : F.pow10 0 = 1) (h : (highShelfDesign F freq 0 sr).1 ≠ 0) :
    FlatBiquad (b.set_high_shelf F freq 0 sr) := by
  obtain ⟨hd1, hd2, hd3⟩ := highShelfDesign_flat F freq sr hF h
  exact ⟨hd1, hd2, hd3, hist.1, hist.2.1, hist.2.2.1, hist.2.2.2⟩

theorem flatProcessor_flat (F : FloatOps) (sr : ℚ) (hF : F.pow10 0 = 1)
    (h1 : (lowShelfDesign F 80 0 sr).1 ≠ 0)
    (h2 : (peakingDesign F 1000 0 (707 / 1000) sr).1 ≠ 0)
    (h3 : (highShelfDesign F 10000 0 sr).1 ≠ 0) :
    FlatChainState (flatProcessor F sr) := by
  exact ⟨flatBiquad_set_low _ F 80 sr ⟨rfl, rfl, rfl, rfl⟩ hF h1,
         flatBiquad_set_peaking _ F 1000 (707 / 1000) sr ⟨rfl, rfl, rfl, rfl⟩
           hF h2,
         flatBiquad_set_high _ F 10000 sr ⟨rfl, rfl, rfl, rfl⟩ hF h3,
         rfl, rfl, rfl, rfl, rfl, rfl⟩

/-- C1 (amended): with all three EQ band gains set to 0 dB and no other
setters called since construction, process_block_stereo reproduces the input
exactly (not merely within 1e-5) on equal-length buffers, PROVIDED every
input sample pair is quiet: its detector level stays at or below the default
compressor threshold (-24 dB) and its linear peak at or below the default
limiter threshold (0.98).  The hypotheses on F state facts of the true f32
functions: powf(10,0) = 1 and nonvanishing of the three filter-design
normalizers a0 (which are near 2, 1 and 2 for any real sample rate). -/
theorem c1_flat_eq_transparency (F : FloatOps) (sr : ℚ)
    (hF : F.pow10 0 = 1)
    (h1 : (lowShelfDesign F 80 0 sr).1 ≠ 0)
    (h2 : (peakingDesign F 1000 0 (707 / 1000) sr).1 ≠ 0)
    (h3 : (highShelfDesign F 10000 0 sr).1 ≠ 0)
    (iL iR oL oR : List ℚ)
    (hl1 : iR.length = iL.length) (hl2 : oL.length = iL.length)
    (hl3 : oR.length = iL.length)
    (hq : ∀ pr ∈ iL.zip iR, QuietPair F pr.1 pr.2) :
    ((flatProcessor F sr).process_block_stereo F iL iR oL oR).2.1 = iL ∧
    ((flatProcessor F sr).process_block_stereo F iL iR oL oR).2.2 = iR := by
  have hlen : blockLen iL iR oL oR = iL.length := by
    simp [blockLen, hl1, hl2, hl3]
  have hzip_take : (iL.zip iR).take (blockLen iL iR oL oR) = iL.zip iR := by
    apply List.take_of_length_le
    rw [List.length_zip, hlen, hl1]
    simp
  have hflat := flatProcessor_flat F sr hF h1 h2 h3
  have hpp := processPairs_flat F hF (iL.zip iR) (flatProcessor F sr) hflat hq
  have hdropL : oL.drop (blockLen iL iR oL oR) = [] := by
    rw [hlen, ← hl2]; exact List.drop_length oL
  have hdropR : oR.drop (blockLen iL iR oL oR) = [] := by
    rw [hlen, ← hl3]; exact List.drop_length oR
  rw [process_block_spec, hzip_take]
  constructor
  · show (processPairs F (flatProcessor F sr) (iL.zip iR)).2.map Prod.fst
      ++ oL.drop (blockLen iL iR oL oR) = iL
    rw [hpp.1, hdropL, List.append_nil,
      List.map_fst_zip iL iR (le_of_eq hl1.symm)]
  · show (processPairs F (flatProcessor F sr) (iL.zip iR)).2.map Prod.snd
      ++ oR.drop (blockLen iL iR oL oR) = iR
    rw [hpp.1, hdropR, List.append_nil,
      List.map_snd_zip iL iR (le_of_eq hl1)]

set_option maxRecDepth 100000 in
unseal Rat.add Rat.mul Rat.inv Rat.sub in
/-- C1 (counterexample): the flat-EQ identity claim as stated is false.
With all EQ gains at 0 dB the compressor (default threshold -24 dB, ratio 4,
active attack coefficient) and the limiter still act on loud input: at
sample rate 48000 on the one-sample buffers [1], the output sample is
0.98000811 under a FloatOps instance consistent with the true f32 functions,
which misses the input 1 by far more than 1e-5. -/
theorem c1_flat_eq_counterexample : ¬ flatEqIdentityClaim := by
  intro h
  have hr : opsA.Reasonable := by
    refine ⟨by decide, by decide, by decide, by decide, ?_⟩
    intro y hy1 hy2
    show (1 : ℚ) + -y ≤ 1 - y
    exact le_of_eq (by ring)
  have h0 := (h opsA hr 48000 (by norm_num) [1] [1] [0] [0] rfl rfl rfl 0
    (by norm_num)).1
  revert h0
  decide

set_option maxRecDepth 100000 in
unseal Rat.add Rat.mul Rat.inv Rat.sub in
/-- Witness for c1_flat_eq_transparency at a concrete quiet input: the flat
chain at sample rate 480 maps the one-sample buffers [0.01] to themselves
exactly. -/
theorem c1_flat_eq_transparency_witness :
    (opsB.pow10 0 = 1 ∧ (lowShelfDesign opsB 80 0 480).1 ≠ 0 ∧
      (peakingDesign opsB 1000 0 (707 / 1000) 480).1 ≠ 0 ∧
      (highShelfDesign opsB 10000 0 480).1 ≠ 0 ∧
      (∀ pr ∈ ([1 / 100] : List ℚ).zip ([1 / 100] : List ℚ),
        QuietPair opsB pr.1 pr.2)) ∧
    ((flatProcessor opsB 480).process_block_stereo opsB
        [1 / 100] [1 / 100] [0] [0]).2.1 = [1 / 100] ∧
    ((flatProcessor opsB 480).process_block_stereo opsB
        [1 / 100] [1 / 100] [0] [0]).2.2 = [1 / 100] :=
  ⟨⟨by decide, by decide, by decide, by decide, by decide⟩,
   c1_flat_eq_transparency opsB 480 (by decide) (by decide) (by decide)
     (by decide) [1 / 100] [1 / 100] [0] [0] rfl rfl rfl (by decide)⟩

theorem processPairs_length (F : FloatOps) :
    ∀ (pairs : List (ℚ × ℚ)) (p : WasmDspProcessor),
      (processPairs F p pairs).2.length = pairs.length := by
  intro pairs
  induction pairs with
  | nil => intro p; rfl
  | cons a rest ih =>
      intro p
      show ((p.process_sample F a.1 a.2).2 ::
        (processPairs F (p.process_sample F a.1 a.2).1 rest).2).length
        = (a :: rest).length
      simp [ih]

/-- C8: process_block_stereo processes exactly the first min-of-four-lengths
samples, sequentially in input order (the cache-blocked loop equals the
sequential fold processPairs), writes them at the corresponding output
positions, leaves output elements beyond that length unchanged, preserves
both output buffer lengths, raises no error for mismatched lengths (the
model is total), and with all-empty buffers performs no writes and leaves
the processor untouched. -/
theorem c8_block_min_semantics (F : FloatOps) (p : WasmDspProcessor)
    (iL iR oL oR : List ℚ) :
    (p.process_block_stereo F iL iR oL oR =
      ((processPairs F p ((iL.zip iR).take (blockLen iL iR oL oR))).1,
       (processPairs F p ((iL.zip iR).take (blockLen iL iR oL oR))).2.map
           Prod.fst ++ oL.drop (blockLen iL iR oL oR),
       (processPairs F p ((iL.zip iR).take (blockLen iL iR oL oR))).2.map
           Prod.snd ++ oR.drop (blockLen iL iR oL oR))) ∧
    (p.process_block_stereo F iL iR oL oR).2.1.length = oL.length ∧
    (p.process_block_stereo F iL iR oL oR).2.2.length = oR.length ∧
    p.process_block_stereo F [] [] [] [] = (p, [], []) := by
  have hb1 : blockLen iL iR oL oR ≤ iL.length := by simp [blockLen, min_le_iff]
  have hb2 : blockLen iL iR oL oR ≤ iR.length := by simp [blockLen, min_le_iff]
  have hb3 : blockLen iL iR oL oR ≤ oL.length := by simp [blockLen, min_le_iff]
  have hb4 : blockLen iL iR oL oR ≤ oR.length := by simp [blockLen, min_le_iff]
  refine ⟨process_block_spec F p iL iR oL oR, ?_, ?_, rfl⟩
  · rw [process_block_spec]
    simp only [List.length_append, List.length_map, processPairs_length,
      List.length_take, List.length_drop, List.length_zip]
    rw [min_eq_left (le_min hb1 hb2)]
    omega
  · rw [process_block_spec]
    simp only [List.length_append, List.length_map, processPairs_length,
      List.length_take, List.length_drop, List.length_zip]
    rw [min_eq_left (le_min hb1 hb2)]
    omega

/-! ### Reset and the settings invariant -/

theorem sameSettings_refl (p : WasmDspProcessor) : SameSettings p p :=
  ⟨rfl, rfl, rfl, rfl, rfl, rfl, rfl, rfl, rfl, rfl, rfl, rfl, rfl⟩

theorem sameSettings_trans (p q s : WasmDspProcessor)
    (h1 : SameSettings p q) (h2 : SameSettings q s) : SameSettings p s := by
  obtain ⟨a1, a2, a3, a4, a5, a6, a7, a8, a9, a10, a11, a12, a13⟩ := h1
  obtain ⟨b1, b2, b3, b4, b5, b6, b7, b8, b9, b10, b11, b12, b13⟩ := h2
  exact ⟨a1.trans b1, a2.trans b2, a3.trans b3, a4.trans b4, a5.trans b5,
    a6.trans b6, a7.trans b7, a8.trans b8, a9.trans b9, a10.trans b10,
    a11.trans b11, a12.trans b12, a13.trans b13⟩

theorem sameSettings_reset (F : FloatOps) (p q : WasmDspProcessor)
    (h : SameSettings p q) : p.reset F = q.reset F := by
  obtain ⟨h1, h2, h3, h4, h5, h6, h7, h8, h9, h10, h11, h12, h13⟩ := h
  simp only [WasmDspProcessor.reset, h1, h2, h3, h4, h5, h6, h7, h8, h9,
    h10, h11, h12, h13]

theorem reset_new (F : FloatOps) (sr : ℚ) :
    (WasmDspProcessor.new F sr).reset F = WasmDspProcessor.new F sr := rfl

theorem process_sample_settings (F : FloatOps) (p : WasmDspProcessor)
    (l r : ℚ) (h : p.reverb.enabled = false) :
    SameSettings (p.process_sample F l r).1 p ∧
      (p.process_sample F l r).1.reverb.enabled = false := by
  have hrev : ∀ a b : ℚ, p.reverb.process_stereo a b = (p.reverb, a, b) :=
    fun a b => reverb_disabled p.reverb a b h
  simp only [WasmDspProcessor.process_sample, hrev]
  exact ⟨⟨rfl, rfl, rfl, rfl, rfl, rfl, rfl, rfl, rfl, rfl, rfl, rfl, rfl⟩, h⟩

theorem processRange_settings (F : FloatOps) (iL iR : List ℚ) :
    ∀ (n start : ℕ) (p : WasmDspProcessor) (oL oR : List ℚ),
      p.reverb.enabled = false →
      SameSettings ((processRange F iL iR (p, oL, oR) start n).1) p ∧
        ((processRange F iL iR (p, oL, oR) start n).1).reverb.enabled
          = false := by
  intro n
  induction n with
  | zero => intro start p oL oR h; exact ⟨sameSettings_refl p, h⟩
  | succ n ih =>
      intro start p oL oR h
      rw [processRange_succ]
      obtain ⟨hss, hen⟩ :=
        process_sample_settings F p (iL.getD start 0) (iR.getD start 0) h
      have hidx : processIdx F iL iR (p, oL, oR) start
          = ((p.process_sample F (iL.getD start 0) (iR.getD start 0)).1,
             oL.set start
               (p.process_sample F (iL.getD start 0) (iR.getD start 0)).2.1,
             oR.set start
               (p.process_sample F (iL.getD start 0) (iR.getD start 0)).2.2) :=
        rfl
      rw [hidx]
      obtain ⟨ihss, ihen⟩ := ih (start + 1) _ _ _ hen
      exact ⟨sameSettings_trans _ _ _ ihss hss, ihen⟩

/-- C2 (amended): reset does restore a freshly-constructed-equivalent state
after any amount of processing, as long as no setter has been called: for a
processor built by new (reverb disabled) and fed any stereo block, reset
returns the state to exactly the construction state, so processing any
further block (e.g. an impulse) gives exactly the fresh processor's output.
(The claim's assertion that reset clears the reverb delay buffers is false
-- reset does not touch the reverb at all -- see the counterexample.) -/
theorem c2_reset_restores_fresh (F : FloatOps) (sr : ℚ)
    (iL iR oL oR jL jR pL pR : List ℚ) :
    ((WasmDspProcessor.new F sr).process_block_stereo F iL iR oL oR).1.reset F
      = WasmDspProcessor.new F sr ∧
    ((((WasmDspProcessor.new F sr).process_block_stereo F iL iR oL
        oR).1.reset F).process_block_stereo F jL jR pL pR
      = (WasmDspProcessor.new F sr).process_block_stereo F jL jR pL pR) := by
  have hen : (WasmDspProcessor.new F sr).reverb.enabled = false := rfl
  have h := processRange_settings F iL iR (blockLen iL iR oL oR) 0
    (WasmDspProcessor.new F sr) oL oR hen
  have hmain : ((WasmDspProcessor.new F sr).process_block_stereo F iL iR oL
      oR).1.reset F = WasmDspProcessor.new F sr := by
    rw [process_block_stereo_eq_range]
    exact (sameSettings_reset F _ _ h.1).trans (reset_new F sr)
  exact ⟨hmain, by rw [hmain]⟩

set_option maxRecDepth 100000 in
unseal Rat.add Rat.mul Rat.inv Rat.sub in
/-- C2 (counterexample): reset does not clear the reverb delay buffers.  The
processor reverbDirty (built at sample rate 480, reverb mix 0.5, one sample
of 1.0 processed) keeps a nonzero comb-buffer sample across reset, so the
claim that reset clears all reverb comb and allpass history is false. -/
theorem c2_reset_counterexample : ¬ resetClearsReverbClaim := by
  intro h
  have h0 := h opsA reverbDirty
  revert h0
  decide

/-! ### Construction (C3) -/

/-- C3 (amended): construction never fails and performs no validation: for
every sample rate, including non-positive ones, new returns a fully
initialized processor carrying that sample rate, with default limiter
threshold and reverb disabled; a non-positive rate silently degenerates the
reverb delay buffers to length zero instead of raising any error. -/
theorem c3_construction_total (F : FloatOps) (sr : ℚ) :
    (WasmDspProcessor.new F sr).sample_rate = sr ∧
    (WasmDspProcessor.new F sr).limiter.threshold = 49 / 50 ∧
    (WasmDspProcessor.new F sr).reverb.enabled = false ∧
    (sr ≤ 0 →
      (WasmDspProcessor.new F sr).reverb.allZero = true ∧
      (WasmDspProcessor.new F sr).reverb.comb_buffers_l.all List.isEmpty
        = true) := by
  refine ⟨rfl, rfl, rfl, fun h => ?_⟩
  have key : ∀ d : ℚ, 0 ≤ d → usizeOfF32 (d * (sr / 48000)) = 0 := by
    intro d hd
    unfold usizeOfF32
    have h1 : sr / 48000 ≤ 0 := by
      apply div_nonpos_of_nonpos_of_nonneg h
      norm_num
    have hx : d * (sr / 48000) ≤ 0 := mul_nonpos_of_nonneg_of_nonpos hd h1
    have h2 : ⌊d * (sr / 48000)⌋ ≤ 0 := by
      calc ⌊d * (sr / 48000)⌋ ≤ ⌊(0 : ℚ)⌋ := Int.floor_le_floor hx
      _ = 0 := Int.floor_zero
    exact Int.toNat_of_nonpos h2
  constructor
  · show (ReverbState.new sr).allZero = true
    simp only [ReverbState.new, ReverbState.allZero]
    norm_num [key 1557 (by norm_num), key 1617 (by norm_num),
      key 1491 (by norm_num), key 1422 (by norm_num), key 1277 (by norm_num),
      key 1356 (by norm_num), key 1583 (by norm_num), key 1601 (by norm_num),
      key 1511 (by norm_num), key 1447 (by norm_num), key 1291 (by norm_num),
      key 1373 (by norm_num), key 225 (by norm_num), key 556 (by norm_num),
      key 441 (by norm_num), key 341 (by norm_num)]
  · show ((ReverbState.new sr).comb_buffers_l.all List.isEmpty) = true
    simp only [ReverbState.new]
    norm_num [key 1557 (by norm_num), key 1617 (by norm_num),
      key 1491 (by norm_num), key 1422 (by norm_num), key 1277 (by norm_num),
      key 1356 (by norm_num)]

unseal Rat.add Rat.mul Rat.inv Rat.sub in
/-- C3 (counterexample): constructing at the invalid sample rate 0 does not
surface any error: a complete processor state exists afterward (the stored
sample rate is 0, the limiter and compressor carry their defaults), refuting
the claim that an invalid rate is a construction error raised before any
state exists; the only effect is empty reverb delay buffers. -/
theorem c3_invalid_rate_constructs :
    (WasmDspProcessor.new opsA 0).sample_rate = 0 ∧
    (WasmDspProcessor.new opsA 0).limiter.threshold = 49 / 50 ∧
    (WasmDspProcessor.new opsA 0).compressor.threshold_db = -24 ∧
    (WasmDspProcessor.new opsA 0).reverb.comb_buffers_l.all List.isEmpty
      = true := by
  refine ⟨rfl, rfl, rfl, ?_⟩
  decide

unseal Rat.add Rat.mul Rat.inv Rat.sub in
/-- Witness for c3_construction_total at the concrete invalid rate -5. -/
theorem c3_construction_total_witness :
    ((-5 : ℚ) ≤ 0) ∧
    (WasmDspProcessor.new opsA (-5)).sample_rate = -5 ∧
    (WasmDspProcessor.new opsA (-5)).reverb.allZero = true :=
  ⟨by norm_num, (c3_construction_total opsA (-5)).1,
   ((c3_construction_total opsA (-5)).2.2.2 (by norm_num)).1⟩

/-! ### Limiter (C4, C9) -/

unseal Rat.add Rat.mul Rat.inv Rat.sub in
/-- C4: limiter steady state.  From the default limiter state (threshold
0.98, release 0.9995, envelope 0), ten consecutive samples of constant
stereo input 1.0 all produce exactly 0.98001 on both channels -- which is
within 1e-6 of the claimed 0.980009995 -- from the very first sample
onward. -/
theorem c4_limiter_steady_state :
    LimiterState.runConst LimiterState.default 1 1 10
      = List.replicate 10 (98001 / 100000, 98001 / 100000) ∧
    |(98001 : ℚ) / 100000 - 980009995 / 1000000000| ≤ 1 / 1000000 := by
  constructor <;> decide

/-! ### Pitch shifter (C5) -/

theorem foldl_set_length {α : Type*} (f : ℕ → α) :
    ∀ (idxs : List ℕ) (l : List α),
      (idxs.foldl (fun acc i => acc.set i (f i)) l).length = l.length := by
  intro idxs
  induction idxs with
  | nil => intro l; rfl
  | cons a rest ih =>
      intro l
      rw [List.foldl_cons, ih, List.length_set]

theorem foldl_range_set_getD {α : Type*} (f : ℕ → α) :
    ∀ (n : ℕ) (l : List α) (j : ℕ) (d : α),
      ((List.range n).foldl (fun acc i => acc.set i (f i)) l).getD j d
        = if j < n ∧ j < l.length then f j else l.getD j d := by
  intro n
  induction n with
  | zero =>
      intro l j d
      rw [List.range_zero, List.foldl_nil, if_neg (by omega)]
  | succ n ih =>
      intro l j d
      rw [List.range_succ, List.foldl_append, List.foldl_cons, List.foldl_nil,
        getD_set_general, foldl_set_length, ih]
      by_cases h1 : n = j ∧ j < l.length
      · rw [if_pos h1, if_pos ⟨by omega, h1.2⟩, h1.1]
      · rw [if_neg h1]
        by_cases h2 : j < n ∧ j < l.length
        · rw [if_pos h2, if_pos ⟨by omega, h2.2⟩]
        · rw [if_neg h2, if_neg ?_]
          rintro ⟨hj, hl⟩
          rcases Nat.lt_succ_iff_lt_or_eq.mp hj with hlt | heq
          · exact h2 ⟨hlt, hl⟩
          · exact h1 ⟨heq.symm, hl⟩

/-- C5 (amended): the pitch shifter looks up input index
(i * ratio) cast to usize, i.e. TRUNCATED toward zero (not rounded to
nearest), and produces 0 when that index reaches min(len_in, len_out). -/
theorem c5_pitch_truncation (pv : PhaseVocoder) (input output : List ℚ)
    (i : ℕ) (h : i < input.length.min output.length) :
    (pv.process input output).getD i 0
      = if usizeOfF32 ((i : ℚ) * pv.pitch_shift)
            < input.length.min output.length
        then input.getD (usizeOfF32 ((i : ℚ) * pv.pitch_shift)) 0
        else 0 := by
  have hout : i < output.length := lt_of_lt_of_le h (Nat.min_le_right _ _)
  simp only [PhaseVocoder.process]
  rw [foldl_range_set_getD
    (fun k => if usizeOfF32 ((k : ℚ) * pv.pitch_shift)
          < input.length.min output.length
        then input.getD (usizeOfF32 ((k : ℚ) * pv.pitch_shift)) 0 else 0)
    (input.length.min output.length) output i 0]
  rw [if_pos ⟨h, hout⟩]

unseal Rat.add Rat.mul Rat.inv Rat.sub in
/-- C5 (counterexample): the nearest-sample (round) lookup stated by the
claim is false.  With stored ratio 1.5 (set_pitch_shift 1.5) on input
[10, 20, 30, 40], output index 1 reads input[(1.5 as usize)] = input[1] = 20,
whereas round(1 * 1.5) = 2 would give 30. -/
theorem c5_round_counterexample : ¬ pitchRoundLookupClaim := by
  intro h
  have h0 := h ((PhaseVocoder.new 1024 48000).set_pitch_shift (3 / 2))
    [10, 20, 30, 40] [0, 0, 0, 0] 1 (by norm_num)
  revert h0
  decide

unseal Rat.add Rat.mul Rat.inv Rat.sub in
/-- Witness for c5_pitch_truncation: ratio 1 (fresh PhaseVocoder), index 0
of input [5, 6] with output buffer [0, 0]. -/
theorem c5_pitch_truncation_witness :
    (0 < ([5, 6] : List ℚ).length.min ([0, 0] : List ℚ).length) ∧
    ((PhaseVocoder.new 8 48000).process [5, 6] [0, 0]).getD 0 0
      = if usizeOfF32 (((0 : ℕ) : ℚ) * (PhaseVocoder.new 8 48000).pitch_shift)
            < ([5, 6] : List ℚ).length.min ([0, 0] : List ℚ).length
        then ([5, 6] : List ℚ).getD
          (usizeOfF32 (((0 : ℕ) : ℚ) * (PhaseVocoder.new 8 48000).pitch_shift))
          0
        else 0 :=
  ⟨by decide,
   c5_pitch_truncation (PhaseVocoder.new 8 48000) [5, 6] [0, 0] 0 (by decide)⟩

/-! ### Compressor transparency (C6), reverb bypass (C7) -/

/-- C6: with makeup gain at 0 dB (linear 1.0) and the envelope at rest (0),
any input pair whose detector level (dB conversion of max(|l|,|r|) with the
-120 dB floor for peaks at or below 1e-10) stays at or below threshold_db is
passed through bit-exactly, and the whole compressor state (in particular
the envelope, which stays 0) is unchanged.  The f32 fact powf(10,0) = 1 is
assumed of the abstracted float operations. -/
theorem c6_compressor_transparent (F : FloatOps) (c : CompressorState)
    (l r : ℚ) (hm : c.makeup_gain = 1) (he : c.envelope = 0)
    (hF : F.pow10 0 = 1) (hdb : compPeakDb F l r ≤ c.threshold_db) :
    c.process_stereo F l r = (c, l, r) :=
  compressor_quiet c F l r hm he hF hdb

unseal Rat.add Rat.mul Rat.inv Rat.sub in
/-- Witness for c6_compressor_transparent: the default compressor under
opsB (log10 = -2, so a 0.01 peak reads -40 dB, below the -24 dB threshold)
passes the sample pair (0.01, 0.01) through unchanged. -/
theorem c6_compressor_transparent_witness :
    (CompressorState.default.makeup_gain = 1 ∧
     CompressorState.default.envelope = 0 ∧
     opsB.pow10 0 = 1 ∧
     compPeakDb opsB (1 / 100) (1 / 100)
       ≤ CompressorState.default.threshold_db) ∧
    CompressorState.default.process_stereo opsB (1 / 100) (1 / 100)
      = (CompressorState.default, 1 / 100, 1 / 100) :=
  ⟨⟨by decide, by decide, by decide, by decide⟩,
   c6_compressor_transparent opsB CompressorState.default (1 / 100) (1 / 100)
     (by decide) (by decide) (by decide) (by decide)⟩

/-- C7: reverb bypass.  set_reverb leaves the stage disabled exactly when
its raw mix argument is at most 0.001 (in particular for mix = 0), and a
disabled reverb stage returns its inputs bit-exactly while leaving the
whole reverb state (delay buffers and cursors) untouched. -/
theorem c7_reverb_bypass (p : WasmDspProcessor) (mix l r : ℚ)
    (rv : ReverbState) (hrv : rv.enabled = false) :
    ((p.set_reverb mix).reverb.enabled = false ↔ mix ≤ 1 / 1000) ∧
    rv.process_stereo l r = (rv, l, r) := by
  constructor
  · show decide (mix > 1 / 1000) = false ↔ mix ≤ 1 / 1000
    rw [decide_eq_false_iff_not, not_lt]
  · exact reverb_disabled rv l r hrv

/-- Witness for c7_reverb_bypass: a fresh 480 Hz processor with
set_reverb 0 stays disabled, and its reverb stage passes (2, 3) through
with unchanged state. -/
theorem c7_reverb_bypass_witness :
    (((WasmDspProcessor.new opsA 480).reverb.enabled = false) ∧
     (((WasmDspProcessor.new opsA 480).set_reverb 0).reverb.enabled = false
        ↔ (0 : ℚ) ≤ 1 / 1000)) ∧
    (WasmDspProcessor.new opsA 480).reverb.process_stereo 2 3
      = ((WasmDspProcessor.new opsA 480).reverb, 2, 3) :=
  ⟨⟨rfl, (c7_reverb_bypass (WasmDspProcessor.new opsA 480) 0 2 3
      (WasmDspProcessor.new opsA 480).reverb rfl).1⟩,
   (c7_reverb_bypass (WasmDspProcessor.new opsA 480) 0 2 3
      (WasmDspProcessor.new opsA 480).reverb rfl).2⟩

/-! ### Limiter envelope invariant (C9) -/

theorem limiter_step_nonneg (li : LimiterState) (a b : ℚ)
    (ht0 : 0 < li.threshold) (hr0 : 0 ≤ li.release_coeff)
    (he : 0 ≤ li.envelope) : 0 ≤ (li.process_stereo a b).1.envelope := by
  simp only [LimiterState.process_stereo]
  apply mul_nonneg ?_ hr0
  by_cases hp : max |a| |b| > li.threshold
  · rw [if_pos hp]
    by_cases htg : 1 - li.threshold / max |a| |b| > li.envelope
    · rw [if_pos htg]
      have hpk : 0 < max |a| |b| := lt_trans ht0 hp
      have hlt : li.threshold / max |a| |b| < 1 := (div_lt_one hpk).mpr hp
      linarith
    · rw [if_neg htg]; exact he
  · rw [if_neg hp]; exact he

/-- C9: the limiter envelope is never negative.  With a positive threshold
(in particular any threshold in (0,1]) and a release coefficient in (0,1),
starting from any nonnegative envelope (in particular 0), the envelope
remains nonnegative after every sequence of process_stereo calls: each call
either jumps the envelope up to the positive target gain (instant attack)
or leaves it, and then decays it multiplicatively by the release
coefficient. -/
theorem c9_limiter_envelope_nonneg (li : LimiterState)
    (inputs : List (ℚ × ℚ)) (ht0 : 0 < li.threshold)
    (ht1 : li.threshold ≤ 1) (hr0 : 0 < li.release_coeff)
    (hr1 : li.release_coeff < 1) (he : 0 ≤ li.envelope) :
    0 ≤ (li.runSeq inputs).envelope := by
  induction inputs generalizing li with
  | nil => exact he
  | cons a rest ih =>
      show 0 ≤ (LimiterState.runSeq ((li.process_stereo a.1 a.2).1)
        rest).envelope
      exact ih ((li.process_stereo a.1 a.2).1) ht0 ht1 hr0 hr1
        (limiter_step_nonneg li a.1 a.2 ht0 (le_of_lt hr0) he)

unseal Rat.add Rat.mul Rat.inv Rat.sub in
/-- Witness for c9_limiter_envelope_nonneg: the default limiter fed the
two-sample sequence (2, -3), (0.5, 0) keeps a nonnegative envelope. -/
theorem c9_limiter_envelope_nonneg_witness :
    (0 < LimiterState.default.threshold ∧
     LimiterState.default.threshold ≤ 1 ∧
     0 < LimiterState.default.release_coeff ∧
     LimiterState.default.release_coeff < 1 ∧
     0 ≤ LimiterState.default.envelope) ∧
    0 ≤ (LimiterState.default.runSeq [(2, -3), (1 / 2, 0)]).envelope :=
  ⟨⟨by decide, by decide, by decide, by decide, by decide⟩,
   c9_limiter_envelope_nonneg LimiterState.default [(2, -3), (1 / 2, 0)]
     (by decide) (by decide) (by decide) (by decide) (by decide)⟩

/-! ### Granular synthesizer (C10) -/

/-- C10: GranularSynth::process with no loaded sample buffer returns
immediately without failing and leaves every element of the output buffer
unchanged. -/
theorem c10_granular_empty_buffer (F : FloatOps) (g : GranularSynth)
    (output : List ℚ) (h : g.buffer = []) : g.process F output = output := by
  unfold GranularSynth.process
  rw [h]
  rfl

/-- Witness for c10_granular_empty_buffer: a fresh GranularSynth (empty
buffer) leaves the output [7, 8] untouched. -/
theorem c10_granular_empty_buffer_witness :
    ((GranularSynth.new 512).buffer = []) ∧
    (GranularSynth.new 512).process opsA [7, 8] = [7, 8] :=
  ⟨rfl, c10_granular_empty_buffer opsA (GranularSynth.new 512) [7, 8] rfl⟩
